import Mathlib

/-!
Verification development for the MySimpleDB storage engine
(`src/lib/mysimpledb.js`).

The development has four layers:

* byte/text utilities mirroring the Node primitives the module uses
  (hex key decoding, base64, `String.prototype.split`);
* the codec (`Database._encrypt` / `Database._decrypt`): the envelope
  format `ivBase64:tagBase64:ciphertextBase64`, with the AES-256-GCM
  core treated as an abstract authenticated cipher (it lives in Node's
  `crypto` library, outside this repository);
* the load procedure (`Database._loadDb`) and the constructor's path
  validation, modelled as sequential functions (both run without
  interacting with the write lock);
* an executable promise/microtask machine for the write pipeline
  (`set` / `delete` / `empty` / `_getDbInstance` / `_writeDb`), faithful
  to ECMAScript promise semantics: each synchronous segment of the
  source is one defunctionalised job, `.then`/`.catch`/`await` register
  reactions, and settling a promise schedules its reactions.  This layer
  is needed because the write path's behaviour is decided by the promise
  chaining itself: a queued write task chains its own disk write onto
  `this.writeLock` after `this.writeLock` has been reassigned to the
  task's own chain, and then awaits it — a cyclic wait.
-/

namespace MySimpleDB

/-! ## Bytes and characters -/

/-- Byte sequences (each entry is meant to be `< 256`; the bound is carried
as a hypothesis where it matters). -/
abbrev Bytes := List Nat

/-- The character `:` (code 58), the envelope separator. -/
def colonC : Char := Char.ofNat 58

/-- The character `/` (code 47), the path separator. -/
def slashC : Char := Char.ofNat 47

/-- The character `.` (code 46). -/
def dotC : Char := Char.ofNat 46

/-- The character `=` (code 61), base64 padding. -/
def eqC : Char := Char.ofNat 61

/-- The NUL character (code 0). -/
def nulC : Char := Char.ofNat 0

/-! ## Hex decoding

`Buffer.from(keyHex, "hex")` decodes pairs of hex digits and stops at the
first invalid pair (Node truncates there). -/

/-- Value of one hex digit, if the character is one. -/
def hexVal (c : Char) : Option Nat :=
  let n := c.toNat
  if 48 ≤ n ∧ n ≤ 57 then some (n - 48)
  else if 97 ≤ n ∧ n ≤ 102 then some (n - 87)
  else if 65 ≤ n ∧ n ≤ 70 then some (n - 55)
  else none

/-- Models `Buffer.from(s, "hex")`: decode hex digit pairs, truncating at the
first invalid pair or a trailing lone digit. -/
def hexDecode : List Char → Bytes
  | c1 :: c2 :: rest =>
    match hexVal c1, hexVal c2 with
    | some h, some l => (h * 16 + l) :: hexDecode rest
    | _, _ => []
  | _ => []

/-! ## Base64

`cipher.update/final(..., "base64")` and `Buffer.from(s, "base64")`.
Encoding is canonical RFC 4648 with padding.  Decoding models Node's
lenient reader: characters outside the alphabet (including `=`) are
skipped, the surviving sextets are packed into bytes, and a trailing
partial sextet group is dropped. -/

/-- The base64 alphabet. -/
def b64alph : List Char :=
  ("ABCDEFGHIJKLMNOPQRSTUVWXYZabcdefghijklmnopqrstuvwxyz0123456789+/").toList

/-- Character for a sextet (defaulting to `A` out of range; encoding only
ever uses sextets `< 64`). -/
def b64char (n : Nat) : Char := b64alph.getD n (Char.ofNat 65)

/-- Index of a character in a list, or `none`. -/
def charIdx (c : Char) : List Char → Nat → Option Nat
  | [], _ => none
  | d :: rest, i => if d = c then some i else charIdx c rest (i + 1)

/-- Sextet of a base64 character, `none` for characters outside the
alphabet (also for `=`). -/
def b64sext (c : Char) : Option Nat := charIdx c b64alph 0

/-- Base64-encode a byte list (canonical, padded). -/
def b64encode : Bytes → List Char
  | [] => []
  | [a] => [b64char (a / 4), b64char (a % 4 * 16), eqC, eqC]
  | [a, b] => [b64char (a / 4), b64char (a % 4 * 16 + b / 16), b64char (b % 16 * 4), eqC]
  | a :: b :: c :: rest =>
    b64char (a / 4) :: b64char (a % 4 * 16 + b / 16) ::
      b64char (b % 16 * 4 + c / 64) :: b64char (c % 64) :: b64encode rest

/-- Pack a list of sextets into bytes, dropping a trailing lone sextet. -/
def packSextets : List Nat → Bytes
  | s0 :: s1 :: s2 :: s3 :: rest =>
    (s0 * 4 + s1 / 16) :: (s1 % 16 * 16 + s2 / 4) :: (s2 % 4 * 64 + s3) :: packSextets rest
  | [s0, s1, s2] => [s0 * 4 + s1 / 16, s1 % 16 * 16 + s2 / 4]
  | [s0, s1] => [s0 * 4 + s1 / 16]
  | _ => []

/-- Models `Buffer.from(s, "base64")` (lenient as in Node). -/
def b64decode (s : List Char) : Bytes := packSextets (s.filterMap b64sext)

/-! ## Splitting on a separator, as `String.prototype.split` does -/

/-- Models `s.split(sep)` for a single-character separator: always returns at
least one (possibly empty) piece. -/
def splitChar (sep : Char) : List Char → List (List Char)
  | [] => [[]]
  | c :: rest =>
    if c = sep then [] :: splitChar sep rest
    else
      match splitChar sep rest with
      | [] => [[c]]
      | p :: ps => (c :: p) :: ps

theorem splitChar_ne_nil (sep : Char) : ∀ l : List Char, splitChar sep l ≠ []
  | [] => by simp [splitChar]
  | c :: rest => by
    simp only [splitChar]
    split
    · simp
    · split
      · simp
      · simp

theorem splitChar_append_no_sep (sep : Char) :
    ∀ (a r : List Char), (∀ x ∈ a, x ≠ sep) →
      ∃ p ps, splitChar sep r = p :: ps ∧ splitChar sep (a ++ r) = (a ++ p) :: ps
  | [], r, _ => by
    match h : splitChar sep r with
    | [] => exact absurd h (splitChar_ne_nil sep r)
    | p :: ps => exact ⟨p, ps, rfl, by simp [h]⟩
  | c :: a, r, h => by
    obtain ⟨p, ps, hr, happ⟩ :=
      splitChar_append_no_sep sep a r (fun x hx => h x (List.mem_cons_of_mem c hx))
    refine ⟨p, ps, hr, ?_⟩
    have hc : c ≠ sep := h c (List.mem_cons_self c a)
    simp only [List.cons_append, splitChar, if_neg hc]
    rw [show a ++ r = a.append r from rfl] at happ
    rw [happ]

theorem splitChar_sep_cons (sep : Char) (r : List Char) :
    splitChar sep (sep :: r) = [] :: splitChar sep r := by
  simp [splitChar]

/-! ## Base64 round-trip -/

theorem b64sext_b64char : ∀ n, n < 64 → b64sext (b64char n) = some n := by decide

theorem b64sext_eqC : b64sext eqC = none := by decide

theorem b64char_ne_colon (n : Nat) : b64char n ≠ colonC := by
  by_cases h : n < 64
  · revert n h
    decide
  · have : b64alph.length ≤ n := by simpa [b64alph] using Nat.le_of_not_lt h
    simp only [b64char, List.getD_eq_default _ _ this]
    decide

theorem b64encode_no_colon : ∀ bs : Bytes, ∀ x ∈ b64encode bs, x ≠ colonC
  | [], x, hx => by simp [b64encode] at hx
  | [a], x, hx => by
    simp only [b64encode, List.mem_cons, List.mem_singleton, List.not_mem_nil, or_false] at hx
    rcases hx with rfl | rfl | rfl | rfl <;> first | exact b64char_ne_colon _ | decide
  | [a, b], x, hx => by
    simp only [b64encode, List.mem_cons, List.mem_singleton, List.not_mem_nil, or_false] at hx
    rcases hx with rfl | rfl | rfl | rfl <;> first | exact b64char_ne_colon _ | decide
  | a :: b :: c :: rest, x, hx => by
    simp only [b64encode, List.mem_cons] at hx
    rcases hx with rfl | rfl | rfl | rfl | hx
    · exact b64char_ne_colon _
    · exact b64char_ne_colon _
    · exact b64char_ne_colon _
    · exact b64char_ne_colon _
    · exact b64encode_no_colon rest x hx

theorem b64decode_encode : ∀ bs : Bytes, (∀ b ∈ bs, b < 256) →
    b64decode (b64encode bs) = bs
  | [], _ => rfl
  | [a], h => by
    have ha : a < 256 := h a (by simp)
    have h0 : b64sext (b64char (a / 4)) = some (a / 4) :=
      b64sext_b64char _ (by omega)
    have h1 : b64sext (b64char (a % 4 * 16)) = some (a % 4 * 16) :=
      b64sext_b64char _ (by omega)
    simp only [b64decode, b64encode, List.filterMap, h0, h1, b64sext_eqC, packSextets]
    simp
    omega
  | [a, b], h => by
    have ha : a < 256 := h a (by simp)
    have hb : b < 256 := h b (by simp)
    have h0 : b64sext (b64char (a / 4)) = some (a / 4) :=
      b64sext_b64char _ (by omega)
    have h1 : b64sext (b64char (a % 4 * 16 + b / 16)) = some (a % 4 * 16 + b / 16) :=
      b64sext_b64char _ (by omega)
    have h2 : b64sext (b64char (b % 16 * 4)) = some (b % 16 * 4) :=
      b64sext_b64char _ (by omega)
    simp only [b64decode, b64encode, List.filterMap, h0, h1, h2, b64sext_eqC, packSextets]
    simp
    omega
  | a :: b :: c :: rest, h => by
    have ha : a < 256 := h a (by simp)
    have hb : b < 256 := h b (by simp)
    have hc : c < 256 := h c (by simp)
    have ih := b64decode_encode rest (fun x hx => h x (by simp [hx]))
    have h0 : b64sext (b64char (a / 4)) = some (a / 4) :=
      b64sext_b64char _ (by omega)
    have h1 : b64sext (b64char (a % 4 * 16 + b / 16)) = some (a % 4 * 16 + b / 16) :=
      b64sext_b64char _ (by omega)
    have h2 : b64sext (b64char (b % 16 * 4 + c / 64)) = some (b % 16 * 4 + c / 64) :=
      b64sext_b64char _ (by omega)
    have h3 : b64sext (b64char (c % 64)) = some (c % 64) :=
      b64sext_b64char _ (by omega)
    simp only [b64decode, b64encode, List.filterMap, h0, h1, h2, h3, packSextets] at ih ⊢
    simp [ih]
    omega

/-! ## JavaScript values

The Document is a JS object mapping string keys to JS values.  `jundefined`
and `jfunc` stand for `undefined` and function values, which are not
JSON-serializable; `JSON.stringify` drops them from objects and turns
them into `null` inside arrays.  Numbers are modelled as integers (the
claims only involve integer values). -/

mutual

inductive JSValue where
  | jnull : JSValue
  | jbool : Bool → JSValue
  | jnum : Int → JSValue
  | jstr : String → JSValue
  | jarr : JSList → JSValue
  | jobj : JSFields → JSValue
  | jundefined : JSValue
  | jfunc : JSValue

inductive JSList where
  | lnil : JSList
  | lcons : JSValue → JSList → JSList

inductive JSFields where
  | fnil : JSFields
  | fcons : String → JSValue → JSFields → JSFields

end

/-- True for values `JSON.stringify` omits from objects (`undefined` and
functions). -/
def isJunk : JSValue → Bool
  | .jundefined => true
  | .jfunc => true
  | _ => false

mutual

/-- Models `Database._clone` (lines 35-47): `null` and non-objects are
returned as-is (the `typeof` guard at line 36); arrays and objects go
through `JSON.parse(JSON.stringify(obj))`, whose composite effect is
structural: object fields holding `undefined`/functions are dropped,
array elements holding them become `null`. -/
def cloneJS : JSValue → JSValue
  | .jarr xs => .jarr (cloneL xs)
  | .jobj fs => .jobj (cloneF fs)
  | v => v

/-- JSON round-trip on array elements. -/
def cloneL : JSList → JSList
  | .lnil => .lnil
  | .lcons v rest =>
    .lcons (if isJunk v then .jnull else cloneJS v) (cloneL rest)

/-- JSON round-trip on object fields. -/
def cloneF : JSFields → JSFields
  | .fnil => .fnil
  | .fcons k v rest =>
    if isJunk v then cloneF rest else .fcons k (cloneJS v) (cloneF rest)

end

/-! ### Object field operations (`db[key] = v`, `delete db[key]`, `key in db`) -/

/-- Models `key in fields`. -/
def hasField : JSFields → String → Bool
  | .fnil, _ => false
  | .fcons k _ rest, key => k = key || hasField rest key

/-- Models `fields[key]` (`undefined` when absent). -/
def getField : JSFields → String → JSValue
  | .fnil, _ => .jundefined
  | .fcons k v rest, key => if k = key then v else getField rest key

/-- Models `fields[key] = v`: update in place if the key exists (JS keeps
the original insertion position), otherwise append. -/
def setField : JSFields → String → JSValue → JSFields
  | .fnil, key, v => .fcons key v .fnil
  | .fcons k w rest, key, v =>
    if k = key then .fcons k v rest else .fcons k w (setField rest key v)

/-- Models `delete fields[key]`. -/
def delField : JSFields → String → JSFields
  | .fnil, _ => .fnil
  | .fcons k v rest, key =>
    if k = key then delField rest key else .fcons k v (delField rest key)

/-- `db[key] = v` on a JS value.  On non-objects the sloppy-mode assignment
is silently ignored; the engine's document is always an object on the
paths exercised here. -/
def objSet (db : JSValue) (key : String) (v : JSValue) : JSValue :=
  match db with
  | .jobj fs => .jobj (setField fs key v)
  | w => w

/-- `delete db[key]` on a JS value (non-objects unchanged). -/
def objDel (db : JSValue) (key : String) : JSValue :=
  match db with
  | .jobj fs => .jobj (delField fs key)
  | w => w

/-- `key in db` on a JS value (`false` on non-objects; on a primitive the
real operator throws, a path the modelled scenarios never reach). -/
def objHas (db : JSValue) (key : String) : Bool :=
  match db with
  | .jobj fs => hasField fs key
  | _ => false

/-- `this.cache` starts as JS `null` (constructor line 29); this reads the
cache slot as the JS value it holds. -/
def cacheVal : Option JSValue → JSValue
  | none => .jnull
  | some v => v

/-! ## Error kinds

The module throws `RequestError`s with distinguishing messages; the spec
names the kinds.  Mapping of throw sites:
`PathTraversal` = line 18, `InvalidFilename` = line 23,
`InvalidKeyLength` = lines 56/97, `MalformedEnvelope` = lines 82/89/92,
`DecryptionFailed` = line 107, `CorruptedJson` = line 147,
`IoFailure` = write/read failures wrapped at lines 150/195.
`KeyNotFound` is not an error kind here: the façade returns it as a
normal result. -/

inductive DbError where
  | PathTraversal
  | InvalidFilename
  | InvalidKeyLength
  | MalformedEnvelope
  | DecryptionFailed
  | CorruptedJson
  | IoFailure
deriving DecidableEq, Repr

/-! ## The codec (`_encrypt` / `_decrypt`, lines 49-109)

The AES-256-GCM core is Node library code, not part of this repository;
it is abstracted as a `Cipher`: `enc key nonce text = (ciphertext, tag)`
and `dec key nonce ciphertext tag` which returns the plaintext or `none`
on authentication failure.  The UTF-8 conversion performed inside
`cipher.update(text, "utf8")` is part of the abstracted core (it takes
the text directly).  Claims about the cipher core itself (GCM round-trip,
authentication) enter the theorems as hypotheses on `Cipher`. -/

structure Cipher where
  enc : Bytes → Bytes → List Char → Bytes × Bytes
  dec : Bytes → Bytes → Bytes → Bytes → Option (List Char)

/-- The on-disk envelope built at line 68:
`iv.toString("base64") : authTag.toString("base64") : encrypted`. -/
def envelope (iv tag ct : Bytes) : List Char :=
  b64encode iv ++ colonC :: b64encode tag ++ colonC :: b64encode ct

/-- Models `Database._encrypt` (lines 49-73).  `iv` is the fresh random
12-byte nonce drawn at line 63 (the 16-byte draw at line 58 is unused by
the code).  Without a key the function is the identity (line 51). -/
def encryptModel (C : Cipher) (keyHex : Option (List Char)) (iv : Bytes)
    (text : List Char) : Except DbError (List Char) :=
  match keyHex with
  | none => .ok text
  | some kh =>
    let key := hexDecode kh
    if key.length ≠ 32 then .error .InvalidKeyLength
    else
      let (ct, tag) := C.enc key iv text
      .ok (envelope iv tag ct)

/-- Models `Database._decrypt` (lines 75-109): split on `:`; exactly three
fields or `MalformedEnvelope`; base64-decode iv and tag and check their
lengths (12 and 16); check the key length; authenticated decryption, any
failure of which is `DecryptionFailed` (the catch at line 105 wraps the
OpenSSL error). -/
def decryptModel (C : Cipher) (keyHex : Option (List Char))
    (s : List Char) : Except DbError (List Char) :=
  match keyHex with
  | none => .ok s
  | some kh =>
    match splitChar colonC s with
    | [p0, p1, p2] =>
      let iv := b64decode p0
      let tag := b64decode p1
      if iv.length ≠ 12 then .error .MalformedEnvelope
      else if tag.length ≠ 16 then .error .MalformedEnvelope
      else
        let key := hexDecode kh
        if key.length ≠ 32 then .error .InvalidKeyLength
        else
          match C.dec key iv (b64decode p2) tag with
          | some t => .ok t
          | none => .error .DecryptionFailed
    | _ => .error .MalformedEnvelope

/-- Splitting the envelope recovers its three fields (base64 text never
contains the separator). -/
theorem splitChar_envelope (iv tag ct : Bytes) :
    splitChar colonC (envelope iv tag ct) =
      [b64encode iv, b64encode tag, b64encode ct] := by
  obtain ⟨p, ps, hr, happ⟩ :=
    splitChar_append_no_sep colonC (b64encode iv)
      (colonC :: (b64encode tag ++ colonC :: b64encode ct))
      (b64encode_no_colon iv)
  rw [splitChar_sep_cons] at hr
  obtain ⟨q, qs, hr2, happ2⟩ :=
    splitChar_append_no_sep colonC (b64encode tag)
      (colonC :: b64encode ct) (b64encode_no_colon tag)
  rw [splitChar_sep_cons] at hr2
  obtain ⟨u, us, hr3, happ3⟩ :=
    splitChar_append_no_sep colonC (b64encode ct) [] (b64encode_no_colon ct)
  simp only [List.append_nil] at happ3
  simp only [splitChar] at hr3
  obtain ⟨rfl, rfl⟩ : u = [] ∧ us = [] := by
    cases hr3
    exact ⟨rfl, rfl⟩
  rw [happ3] at hr2
  cases hr2
  rw [happ2] at hr
  cases hr
  simpa [envelope] using happ

/-! ## Claim C2: codec round-trip -/

/-- C2: for every 32-byte key, every plaintext and every nonce the encoder
may draw, decoding the blob produced by encoding under the same key
returns exactly the plaintext.  The envelope/format layer (base64,
`:`-joining, field and length checks, key handling) is proved outright;
the properties of the AES-256-GCM core (a Node library primitive outside
this repository) enter as the hypotheses `henc`/`hdec` together with the
shape facts that GCM guarantees (12-byte nonce as drawn at line 63,
16-byte tag, byte-valued buffers). -/
theorem c2_codec_roundtrip (C : Cipher) (kh : List Char) (iv : Bytes)
    (t : List Char) (ct tag : Bytes)
    (hkey : (hexDecode kh).length = 32)
    (henc : C.enc (hexDecode kh) iv t = (ct, tag))
    (hiv : iv.length = 12) (hivb : ∀ b ∈ iv, b < 256)
    (htag : tag.length = 16) (htagb : ∀ b ∈ tag, b < 256)
    (hctb : ∀ b ∈ ct, b < 256)
    (hdec : C.dec (hexDecode kh) iv ct tag = some t) :
    encryptModel C (some kh) iv t = .ok (envelope iv tag ct) ∧
      decryptModel C (some kh) (envelope iv tag ct) = .ok t := by
  constructor
  · simp [encryptModel, hkey, henc]
  · simp only [decryptModel, splitChar_envelope]
    rw [b64decode_encode iv hivb, b64decode_encode tag htagb,
      b64decode_encode ct hctb]
    simp [hiv, htag, hkey, hdec]

/-- A trivial cipher used only to instantiate the codec theorems at
concrete inputs. -/
def idCipher : Cipher where
  enc := fun _ _ t => (t.map Char.toNat, List.replicate 16 0)
  dec := fun _ _ ct _ => some (ct.map fun n => Char.ofNat n)

theorem c2_codec_roundtrip_witness :
    encryptModel idCipher (some (List.replicate 64 (Char.ofNat 48)))
        (List.replicate 12 0) ("hi".toList) =
      .ok (envelope (List.replicate 12 0) (List.replicate 16 0) [104, 105]) ∧
    decryptModel idCipher (some (List.replicate 64 (Char.ofNat 48)))
        (envelope (List.replicate 12 0) (List.replicate 16 0) [104, 105]) =
      .ok ("hi".toList) :=
  c2_codec_roundtrip idCipher (List.replicate 64 (Char.ofNat 48))
    (List.replicate 12 0) ("hi".toList) [104, 105] (List.replicate 16 0)
    (by decide) (by decide) (by decide) (by decide) (by decide) (by decide)
    (by decide) (by decide)

/-! ## Claim C3: decode rejects foreign content -/

/-- C3: with a valid key configured, `_decrypt` fails with
`MalformedEnvelope` or `DecryptionFailed` on every input that does not
authenticate under that key (plain JSON, garbage, or an envelope produced
under a different key — `hrej` is the ideal-cipher reading of "not
produced by `encode` under this key"), and never returns such input as a
document; on a shape-correct envelope the failure is specifically
`DecryptionFailed`. -/
theorem c3_decode_rejects (C : Cipher) (kh : List Char)
    (hkey : (hexDecode kh).length = 32)
    (hrej : ∀ iv ct tag, C.dec (hexDecode kh) iv ct tag = none) :
    (∀ s, decryptModel C (some kh) s = .error .MalformedEnvelope ∨
        decryptModel C (some kh) s = .error .DecryptionFailed) ∧
    (∀ iv tag ct, iv.length = 12 → (∀ b ∈ iv, b < 256) →
        tag.length = 16 → (∀ b ∈ tag, b < 256) → (∀ b ∈ ct, b < 256) →
        decryptModel C (some kh) (envelope iv tag ct) =
          .error .DecryptionFailed) := by
  constructor
  · intro s
    rcases hsp : splitChar colonC s with _ | ⟨p0, _ | ⟨p1, _ | ⟨p2, _ | ⟨p3, ps⟩⟩⟩⟩ <;>
      simp only [decryptModel, hsp]
    · exact Or.inl trivial
    · exact Or.inl trivial
    · exact Or.inl trivial
    · split_ifs with h1 h2 h3
      · exact Or.inl rfl
      · exact Or.inl rfl
      · exact absurd hkey h3
      · simp [hrej]
    · exact Or.inl trivial
  · intro iv tag ct h12 hivb h16 htagb hctb
    simp only [decryptModel, splitChar_envelope]
    rw [b64decode_encode iv hivb, b64decode_encode tag htagb,
      b64decode_encode ct hctb]
    simp [h12, h16, hkey, hrej]

/-- A cipher that authenticates nothing, used only to instantiate the
rejection theorem at concrete inputs. -/
def rejectAll : Cipher where
  enc := fun _ _ t => (t.map Char.toNat, List.replicate 16 0)
  dec := fun _ _ _ _ => none

theorem c3_decode_rejects_witness :
    (decryptModel rejectAll (some (List.replicate 64 (Char.ofNat 48)))
        ("[1, 2]".toList) = .error .MalformedEnvelope ∨
      decryptModel rejectAll (some (List.replicate 64 (Char.ofNat 48)))
        ("[1, 2]".toList) = .error .DecryptionFailed) ∧
    decryptModel rejectAll (some (List.replicate 64 (Char.ofNat 48)))
        (envelope (List.replicate 12 0) (List.replicate 16 0) [104]) =
      .error .DecryptionFailed :=
  ⟨(c3_decode_rejects rejectAll (List.replicate 64 (Char.ofNat 48))
      (by decide) (fun _ _ _ => rfl)).1 ("[1, 2]".toList),
    (c3_decode_rejects rejectAll (List.replicate 64 (Char.ofNat 48))
      (by decide) (fun _ _ _ => rfl)).2 (List.replicate 12 0)
      (List.replicate 16 0) [104] (by decide) (by decide) (by decide)
      (by decide) (by decide)⟩

/-! ## Engine state and the load procedure -/

/-- External collaborators of the engine: the abstract cipher core, the
configured key (a hex string, or absent), and the JSON text functions
(`JSON.parse` / `JSON.stringify(·, null, 2)`), which are Node built-ins
outside this repository and are abstracted as parameters; `jparse`
returns `none` where `JSON.parse` throws a `SyntaxError`. -/
structure Config where
  cipher : Cipher
  keyHex : Option (List Char)
  jparse : List Char → Option JSValue
  jstringify : JSValue → List Char

/-- The mutable fields of a `Database` instance the engine logic reads and
writes (`this.cache`, `this.cacheLoaded`) together with the file the
instance owns (`none` = the file does not exist). -/
structure EngineState where
  cache : Option JSValue
  cacheLoaded : Bool
  disk : Option (List Char)

/-- A freshly constructed instance with no pre-existing file
(constructor lines 29-30). -/
def freshEng : EngineState :=
  { cache := none, cacheLoaded := false, disk := none }

/-- JS whitespace for `String.prototype.trim` (tab, LF, VT, FF, CR,
space; the Unicode additions are irrelevant to the claims). -/
def isJsSpace (c : Char) : Bool := c.toNat ∈ [9, 10, 11, 12, 13, 32]

/-- `content.trim() === ""` (line 122). -/
def isBlank (s : List Char) : Bool := s.all isJsSpace

/-- Models `Database._loadDb` (lines 111-152): a missing file or blank
content yields the empty document; otherwise the content is decrypted
when a key is configured (`decryptModel` is the identity without one,
matching the guard at line 128) and parsed as JSON, a parse failure
being reported as the corrupted-data error (line 147). -/
def loadDb (cfg : Config) (s : EngineState) : Except DbError EngineState :=
  match s.disk with
  | none => .ok { s with cache := some (.jobj .fnil), cacheLoaded := true }
  | some content =>
    if isBlank content then
      .ok { s with cache := some (.jobj .fnil), cacheLoaded := true }
    else
      match decryptModel cfg.cipher cfg.keyHex content with
      | .error e => .error e
      | .ok txt =>
        match cfg.jparse txt with
        | none => .error .CorruptedJson
        | some v => .ok { s with cache := some v, cacheLoaded := true }

/-! ## Claim C6: the load procedure -/

/-- C6: loading yields the empty document when the file is missing or its
content is blank; any other content goes through the codec's decode and
then JSON parsing, and a parse failure is reported as `CorruptedJson`
(never silently treated as empty); a successful parse loads exactly the
parsed document. -/
theorem c6_load_procedure (cfg : Config) (s : EngineState) :
    (s.disk = none →
      loadDb cfg s = .ok { s with cache := some (.jobj .fnil), cacheLoaded := true }) ∧
    (∀ content, s.disk = some content → isBlank content = true →
      loadDb cfg s = .ok { s with cache := some (.jobj .fnil), cacheLoaded := true }) ∧
    (∀ content txt, s.disk = some content → isBlank content = false →
      decryptModel cfg.cipher cfg.keyHex content = .ok txt →
      cfg.jparse txt = none →
      loadDb cfg s = .error .CorruptedJson) ∧
    (∀ content txt v, s.disk = some content → isBlank content = false →
      decryptModel cfg.cipher cfg.keyHex content = .ok txt →
      cfg.jparse txt = some v →
      loadDb cfg s = .ok { s with cache := some v, cacheLoaded := true }) ∧
    (∀ content e, s.disk = some content → isBlank content = false →
      decryptModel cfg.cipher cfg.keyHex content = .error e →
      loadDb cfg s = .error e) := by
  refine ⟨?_, ?_, ?_, ?_, ?_⟩
  · intro h
    simp [loadDb, h]
  · intro content h hb
    simp [loadDb, h, hb]
  · intro content txt h hb hdec hp
    simp [loadDb, h, hb, hdec, hp]
  · intro content txt v h hb hdec hp
    simp [loadDb, h, hb, hdec, hp]
  · intro content e h hb hdec
    simp [loadDb, h, hb, hdec]

/-- A configuration whose parser rejects everything, used only to
instantiate load theorems concretely (the cipher and serializer are the
trivial ones; no key is configured). -/
def cfgNoParse : Config where
  cipher := idCipher
  keyHex := none
  jparse := fun _ => none
  jstringify := fun _ => []

theorem c6_load_procedure_witness :
    loadDb cfgNoParse { cache := none, cacheLoaded := false, disk := some ("xyz".toList) } =
      .error .CorruptedJson :=
  (c6_load_procedure cfgNoParse
      { cache := none, cacheLoaded := false, disk := some ("xyz".toList) }).2.2.1
    ("xyz".toList) ("xyz".toList) rfl (by decide) rfl rfl

/-! ## Constructor path validation (lines 13-24)

`path.resolve(cwd, name)` (POSIX) followed by
`resolvedPath.startsWith(cwd)` and a NUL check on the basename.  `cwd`
is assumed to be an absolute normalized path, as `process.cwd()`
returns. -/

/-- Does the path start with `/`? -/
def isAbsPath (p : List Char) : Bool :=
  match p with
  | c :: _ => c = slashC
  | [] => false

/-- Process path segments: empty and `.` segments vanish, `..` pops the
previous segment (clamped at the root). -/
def normSegs (segs : List (List Char)) : List (List Char) :=
  segs.foldl
    (fun acc seg =>
      if seg = [] ∨ seg = [dotC] then acc
      else if seg = [dotC, dotC] then acc.dropLast
      else acc ++ [seg])
    []

/-- Join pieces with a separator. -/
def joinWith (sep : Char) : List (List Char) → List Char
  | [] => []
  | [p] => p
  | p :: rest => p ++ sep :: joinWith sep rest

/-- Models POSIX `path.resolve(cwd, p)` for an absolute normalized `cwd`
(line 15). -/
def resolvePath (cwd p : List Char) : List Char :=
  let full := if isAbsPath p then p else cwd ++ slashC :: p
  slashC :: joinWith slashC (normSegs (splitChar slashC full))

/-- `s.startsWith(p)` on character lists (line 17 uses the string
version). -/
def startsWithL : List Char → List Char → Bool
  | _, [] => true
  | [], _ :: _ => false
  | c :: s, d :: p => c = d && startsWithL s p

/-- Models `path.basename` on a resolved (hence trailing-slash-free)
path: the last `/`-separated segment (line 21). -/
def basenameOf (p : List Char) : List Char :=
  (splitChar slashC p).getLastD []

/-- `filename.includes("\0")` (line 22). -/
def hasNulChar (s : List Char) : Bool := s.contains nulC

/-- Models the `Database` constructor's validation (lines 13-24): resolve
the name against the working directory, reject when the resolved path
does not *start with* the cwd string, then reject NUL bytes in the
basename; on success the instance stores the resolved path. -/
def mkDatabase (cwd fname : List Char) : Except DbError (List Char) :=
  let resolved := resolvePath cwd fname
  if ¬ startsWithL resolved cwd then .error .PathTraversal
  else if hasNulChar (basenameOf resolved) then .error .InvalidFilename
  else .ok resolved

/-- Directory containment in the spec's sense ("the resolved path is
contained within the working directory"): the path is the directory
itself or lies strictly below it.  Written from the spec's words, to be
compared with the code's `startsWith` check. -/
def containedWithin (p base : List Char) : Bool :=
  decide (p = base) || startsWithL p (base ++ [slashC])

/-! ## Claim C7: path validation -/

/-- C7 counterexample: from working directory `/app`, the filename
`../apps/x.json` resolves to `/apps/x.json`, which is *not* contained
within `/app`, yet construction succeeds — the code's
`resolvedPath.startsWith(cwd)` check accepts sibling directories that
share the cwd as a string prefix, so the claim "construction fails with
`PathTraversal` for every filename whose resolution is not contained
within the working directory" is false. -/
theorem c7_path_check_counterexample :
    containedWithin (resolvePath ("/app".toList) ("../apps/x.json".toList))
        ("/app".toList) = false ∧
      mkDatabase ("/app".toList) ("../apps/x.json".toList) =
        .ok ("/apps/x.json".toList) := by
  constructor
  · decide
  · rfl

/-- C7 (amended): construction fails with `PathTraversal` exactly for
filenames whose resolved path does not start with the working-directory
string (a string-prefix check, which also accepts sibling paths sharing
the cwd as a string prefix and is therefore weaker than directory
containment); when the prefix check passes and the basename has no NUL
byte, construction succeeds with the resolved path.  The spec scenario
(`"../secret.json"` fails) is an instance of the first part. -/
theorem c7_path_check_amended (cwd fname : List Char) :
    (startsWithL (resolvePath cwd fname) cwd = false →
      mkDatabase cwd fname = .error .PathTraversal) ∧
    (startsWithL (resolvePath cwd fname) cwd = true →
      hasNulChar (basenameOf (resolvePath cwd fname)) = false →
      mkDatabase cwd fname = .ok (resolvePath cwd fname)) := by
  constructor
  · intro h
    simp [mkDatabase, h]
  · intro h hnul
    simp [mkDatabase, h, hnul]

theorem c7_path_check_amended_witness :
    mkDatabase ("/home/user".toList) ("../secret.json".toList) =
        .error .PathTraversal ∧
      mkDatabase ("/home/user".toList) ("data.json".toList) =
        .ok ("/home/user/data.json".toList) :=
  ⟨(c7_path_check_amended ("/home/user".toList) ("../secret.json".toList)).1
      (by decide),
    by
      have h := (c7_path_check_amended ("/home/user".toList)
        ("data.json".toList)).2 (by decide) (by decide)
      rw [h]
      rfl⟩

/-! ## The write pipeline as a promise/microtask machine

The write path's behaviour is decided by promise chaining, so it is
embedded at that level.  Promises live in a table; a pending promise
carries the reactions (defunctionalised callbacks) registered on it by
`.then`/`.catch`/`await`; settling a promise moves its reactions to the
microtask queue; `step` pops one job and runs the corresponding
synchronous segment of the source.  Each `Seg` constructor is one such
segment, documented with the lines of `src/lib/mysimpledb.js` it
transcribes.  Async-function calls run synchronously to their first
`await`; `await p` registers the continuation segment on `p`; an
async function's own promise settles when its body returns or throws;
`p.then(f)` chained on an async `f` makes the `.then` promise adopt the
task's promise (`link`). -/

/-- A promise settlement: fulfilled with a JS value or rejected with an
error. -/
inductive Sett where
  | val : JSValue → Sett
  | err : DbError → Sett

/-- Defunctionalised synchronous segments of the source (promise ids the
segment settles or adopts are carried as arguments). -/
inductive Seg where
  /-- Promise adoption: forward the settlement of the awaited promise. -/
  | link : Nat → Seg
  /-- Body of the task queued by `set` (lines 210-211) up to the `await`
  of `_getDbInstance`; `a` is the `.then` promise that adopts the task. -/
  | setTask : String → JSValue → Nat → Seg
  /-- Resumption of the `set` task at line 212-213 with the awaited
  document: assign, then call `_writeDb` and await it. -/
  | setTask2 : String → JSValue → Nat → Seg
  /-- Resumption after `_writeDb` resolves: the task body ends (line 213),
  settling the task promise `t`. -/
  | setTask3 : Nat → Seg
  /-- The `.catch` at line 214: store the error in `errorToThrow`. -/
  | setCatch : Nat → Seg
  /-- `await this.writeLock` at line 217 and the rethrow at line 218,
  settling `set`'s own promise. -/
  | setResume : Nat → Seg
  /-- The arrow queued by `_getDbInstance` (lines 162-165): run `_loadDb`
  unless the cache is already loaded.  `_loadDb` (lines 111-152) performs
  only file-system awaits, so it is run atomically here via `loadDb`. -/
  | loadTask : Nat → Seg
  /-- The `.catch` at lines 166-171: reset `cacheLoaded` and rethrow. -/
  | loadCatch : Nat → Seg
  /-- `await this.writeLock` at line 172 and `return this._clone(this.cache)`
  at line 174, settling `_getDbInstance`'s promise. -/
  | getDbResume : Nat → Seg
  /-- The `operation` closure of `_writeDb` (lines 182-188): stringify,
  optionally encrypt, and write the file. -/
  | writeOp : JSValue → Nat → Seg
  /-- The `.catch` at lines 190-196 (rethrows `RequestError`s, wraps other
  errors; error kinds are preserved here). -/
  | writeCatch : Nat → Seg
  /-- `await this.writeLock` at line 197, settling `_writeDb`'s promise. -/
  | writeDbResume : Nat → Seg
  /-- Body of the task queued by `delete` (lines 224-225) up to the `await`
  of `_getDbInstance`. -/
  | delTask : String → Nat → Seg
  /-- Resumption at lines 226-230: if the key is present, delete it and
  await `_writeDb`; otherwise the task ends with `result` still the
  key-not-found value. -/
  | delTask2 : String → Nat → Seg
  /-- Resumption after `_writeDb`: `result = { ok: true }` (line 229) and
  the task body ends. -/
  | delTask3 : Nat → Seg
  /-- The `.catch` at line 231. -/
  | delCatch : Nat → Seg
  /-- `await this.writeLock` at line 234 and lines 235-236, settling
  `delete`'s own promise with the captured `result`. -/
  | delResume : Nat → Seg
  /-- Body of the task queued by `empty` (line 257): call `_writeDb({})`
  and await it. -/
  | emptyTask : Nat → Seg
  /-- Resumption after `_writeDb`: the task body ends. -/
  | emptyTask2 : Nat → Seg
  /-- The `.catch` at line 258. -/
  | emptyCatch : Nat → Seg
  /-- `await this.writeLock` at line 261 and lines 262-263, settling
  `empty`'s own promise. -/
  | emptyResume : Nat → Seg
  /-- The host program's next statement after an awaited engine call; it
  only records that the program got that far. -/
  | hostStep : Seg

/-- A promise: its state and, while pending, the registered reactions. -/
inductive PromState where
  | pending : PromState
  | fulfilled : JSValue → PromState
  | rejected : DbError → PromState

structure Prom where
  state : PromState
  reax : List Seg

/-- The whole machine: promise table, microtask queue, the engine instance
fields (`this.cache`, `this.cacheLoaded`, the file), `this.writeLock`
(a promise id), whether `fs.writeFile` would succeed, instrumentation
counters, and the locals captured by the pending façade calls
(`errorToThrow`, delete's `result`). -/
structure Machine where
  cfg : Config
  proms : List Prom
  queue : List (Seg × Sett)
  eng : EngineState
  wl : Nat
  fsWriteOk : Bool
  fsWriteAttempts : Nat
  loadRuns : Nat
  setError : Option DbError
  delError : Option DbError
  delRemoved : Bool
  emptyError : Option DbError
  hostProgress : Nat

/-- Allocate a fresh pending promise. -/
def mkProm (m : Machine) : Nat × Machine :=
  (m.proms.length, { m with proms := m.proms ++ [⟨.pending, []⟩] })

/-- Allocate an already-fulfilled promise (an async function that returned
without awaiting). -/
def mkFulfilled (m : Machine) (v : JSValue) : Nat × Machine :=
  (m.proms.length, { m with proms := m.proms ++ [⟨.fulfilled v, []⟩] })

/-- Settle a pending promise and schedule its reactions (settled promises
stay settled). -/
def settle (m : Machine) (i : Nat) (s : Sett) : Machine :=
  match m.proms[i]? with
  | some p =>
    match p.state with
    | .pending =>
      let st := match s with
        | .val v => PromState.fulfilled v
        | .err e => PromState.rejected e
      { m with
        proms := m.proms.set i ⟨st, []⟩
        queue := m.queue ++ p.reax.map fun k => (k, s) }
    | _ => m
  | none => m

/-- Register a reaction on a promise: stored while pending, scheduled at
once if already settled (the ECMAScript `.then`/`await` rule). -/
def listen (m : Machine) (i : Nat) (k : Seg) : Machine :=
  match m.proms[i]? with
  | some p =>
    match p.state with
    | .pending =>
      { m with proms := m.proms.set i { p with reax := p.reax ++ [k] } }
    | .fulfilled v => { m with queue := m.queue ++ [(k, .val v)] }
    | .rejected e => { m with queue := m.queue ++ [(k, .err e)] }
  | none => m

/-- The synchronous part of `_getDbInstance` (lines 154-175), as executed
inside a queued task: with the cache loaded it returns (a promise already
fulfilled with) a clone; otherwise it chains the load onto the *current*
`this.writeLock`, reassigns the lock, and its promise is settled by
`getDbResume` after that chain settles. -/
def callGetDb (m : Machine) : Nat × Machine :=
  if m.eng.cacheLoaded then
    mkFulfilled m (cloneJS (cacheVal m.eng.cache))
  else
    let (b, m) := mkProm m
    let m := listen m m.wl (.loadTask b)
    let (b2, m) := mkProm m
    let m := listen m b (.loadCatch b2)
    let m := { m with wl := b2 }
    let (g, m) := mkProm m
    (g, listen m b2 (.getDbResume g))

/-- The synchronous part of `_writeDb` (lines 177-197): update the cache
with a clone and mark it loaded (lines 179-180), chain `operation` onto
the *current* `this.writeLock` with a `.catch` (line 190), reassign the
lock, and await it (line 197); the returned promise is settled by
`writeDbResume`. -/
def callWriteDb (m : Machine) (d : JSValue) : Nat × Machine :=
  let m := { m with
    eng := { m.eng with cache := some (cloneJS d), cacheLoaded := true } }
  let (c, m) := mkProm m
  let m := listen m m.wl (.writeOp d c)
  let (c2, m) := mkProm m
  let m := listen m c (.writeCatch c2)
  let m := { m with wl := c2 }
  let (w, m) := mkProm m
  (w, listen m c2 (.writeDbResume w))

/-- Run one defunctionalised segment on an incoming settlement.  A `.then`
task chained with one argument propagates a rejection without running
(the `.err` branches of the task segments); an `await` resumption on a
rejection rethrows, rejecting the async function's promise. -/
def execSeg (m : Machine) : Seg → Sett → Machine
  | .link tgt, s => settle m tgt s
  | .setTask k v a, s =>
    match s with
    | .err e => settle m a (.err e)
    | .val _ =>
      let (g, m) := callGetDb m
      let (t, m) := mkProm m
      let m := listen m g (.setTask2 k v t)
      listen m t (.link a)
  | .setTask2 k v t, s =>
    match s with
    | .err e => settle m t (.err e)
    | .val db =>
      let (w, m) := callWriteDb m (objSet db k v)
      listen m w (.setTask3 t)
  | .setTask3 t, s =>
    match s with
    | .err e => settle m t (.err e)
    | .val _ => settle m t (.val .jundefined)
  | .setCatch a2, s =>
    match s with
    | .val v => settle m a2 (.val v)
    | .err e => settle { m with setError := some e } a2 (.val .jundefined)
  | .setResume sp, s =>
    match s with
    | .err e => settle m sp (.err e)
    | .val _ =>
      match m.setError with
      | some e => settle m sp (.err e)
      | none => settle m sp (.val .jundefined)
  | .loadTask b, s =>
    match s with
    | .err e => settle m b (.err e)
    | .val _ =>
      let m := { m with loadRuns := m.loadRuns + 1 }
      if m.eng.cacheLoaded then settle m b (.val .jundefined)
      else
        match loadDb m.cfg m.eng with
        | .ok e2 => settle { m with eng := e2 } b (.val .jundefined)
        | .error er => settle m b (.err er)
  | .loadCatch b2, s =>
    match s with
    | .val v => settle m b2 (.val v)
    | .err e =>
      settle { m with eng := { m.eng with cacheLoaded := false } } b2 (.err e)
  | .getDbResume g, s =>
    match s with
    | .err e => settle m g (.err e)
    | .val _ => settle m g (.val (cloneJS (cacheVal m.eng.cache)))
  | .writeOp d c, s =>
    match s with
    | .err e => settle m c (.err e)
    | .val _ =>
      let m := { m with fsWriteAttempts := m.fsWriteAttempts + 1 }
      match encryptModel m.cfg.cipher m.cfg.keyHex [] (m.cfg.jstringify d) with
      | .ok out =>
        if m.fsWriteOk then
          settle { m with eng := { m.eng with disk := some out } } c (.val .jundefined)
        else settle m c (.err .IoFailure)
      | .error e => settle m c (.err e)
  | .writeCatch c2, s => settle m c2 s
  | .writeDbResume w, s =>
    match s with
    | .err e => settle m w (.err e)
    | .val _ => settle m w (.val .jundefined)
  | .delTask k a, s =>
    match s with
    | .err e => settle m a (.err e)
    | .val _ =>
      let (g, m) := callGetDb m
      let (t, m) := mkProm m
      let m := listen m g (.delTask2 k t)
      listen m t (.link a)
  | .delTask2 k t, s =>
    match s with
    | .err e => settle m t (.err e)
    | .val db =>
      if objHas db k then
        let (w, m) := callWriteDb m (objDel db k)
        listen m w (.delTask3 t)
      else settle m t (.val .jundefined)
  | .delTask3 t, s =>
    match s with
    | .err e => settle m t (.err e)
    | .val _ => settle { m with delRemoved := true } t (.val .jundefined)
  | .delCatch a2, s =>
    match s with
    | .val v => settle m a2 (.val v)
    | .err e => settle { m with delError := some e } a2 (.val .jundefined)
  | .delResume dp, s =>
    match s with
    | .err e => settle m dp (.err e)
    | .val _ =>
      match m.delError with
      | some e => settle m dp (.err e)
      | none => settle m dp (.val (.jbool m.delRemoved))
  | .emptyTask a, s =>
    match s with
    | .err e => settle m a (.err e)
    | .val _ =>
      let (w, m) := callWriteDb m (.jobj .fnil)
      let (t, m) := mkProm m
      let m := listen m w (.emptyTask2 t)
      listen m t (.link a)
  | .emptyTask2 t, s =>
    match s with
    | .err e => settle m t (.err e)
    | .val _ => settle m t (.val .jundefined)
  | .emptyCatch a2, s =>
    match s with
    | .val v => settle m a2 (.val v)
    | .err e => settle { m with emptyError := some e } a2 (.val .jundefined)
  | .emptyResume ep, s =>
    match s with
    | .err e => settle m ep (.err e)
    | .val _ =>
      match m.emptyError with
      | some e => settle m ep (.err e)
      | none => settle m ep (.val .jundefined)
  | .hostStep, _ => { m with hostProgress := m.hostProgress + 1 }

/-- Run one microtask (no-op on an empty queue: the event loop is idle). -/
def step (m : Machine) : Machine :=
  match m.queue with
  | [] => m
  | (k, s) :: rest => execSeg { m with queue := rest } k s

/-- Run `n` microtasks. -/
def runN : Nat → Machine → Machine
  | 0, m => m
  | n + 1, m => step (runN n m)

/-- Once the machine is a fixpoint of `step` (idle event loop), it stays
there forever. -/
theorem runN_fix (m : Machine) (N : Nat)
    (h : step (runN N m) = runN N m) : ∀ k, runN (N + k) m = runN N m
  | 0 => rfl
  | k + 1 => by
    rw [show N + (k + 1) = (N + k) + 1 from rfl, runN, runN_fix m N h k, h]

/-- Is the promise with the given id still pending? -/
def promPendingB (m : Machine) (i : Nat) : Bool :=
  match m.proms[i]? with
  | some p =>
    match p.state with
    | .pending => true
    | _ => false
  | none => false

/-- The synchronous prologue of `set(key, value)` (lines 208-217): chain
the task onto `this.writeLock` with a `.catch`, reassign the lock, and
`await this.writeLock`; returns the id of `set`'s own promise. -/
def callSet (m : Machine) (k : String) (v : JSValue) : Nat × Machine :=
  let (a, m) := mkProm m
  let m := listen m m.wl (.setTask k v a)
  let (a2, m) := mkProm m
  let m := listen m a (.setCatch a2)
  let m := { m with wl := a2 }
  let (sp, m) := mkProm m
  (sp, listen m a2 (.setResume sp))

/-- The synchronous prologue of `delete(key)` (lines 221-234). -/
def callDelete (m : Machine) (k : String) : Nat × Machine :=
  let (a, m) := mkProm m
  let m := listen m m.wl (.delTask k a)
  let (a2, m) := mkProm m
  let m := listen m a (.delCatch a2)
  let m := { m with wl := a2 }
  let (dp, m) := mkProm m
  (dp, listen m a2 (.delResume dp))

/-- The synchronous prologue of `empty()` (lines 254-261). -/
def callEmpty (m : Machine) : Nat × Machine :=
  let (a, m) := mkProm m
  let m := listen m m.wl (.emptyTask a)
  let (a2, m) := mkProm m
  let m := listen m a (.emptyCatch a2)
  let m := { m with wl := a2 }
  let (ep, m) := mkProm m
  (ep, listen m a2 (.emptyResume ep))

/-- A fresh `Database` instance: `this.writeLock = Promise.resolve()`
(line 31) is promise 0; `fsOk` says whether `fs.writeFile` would succeed
if attempted. -/
def initM (cfg : Config) (eng : EngineState) (fsOk : Bool) : Machine :=
  { cfg := cfg
    proms := [⟨.fulfilled .jundefined, []⟩]
    queue := []
    eng := eng
    wl := 0
    fsWriteOk := fsOk
    fsWriteAttempts := 0
    loadRuns := 0
    setError := none
    delError := none
    delRemoved := false
    emptyError := none
    hostProgress := 0 }

/-! ## Scenario machines

All scenarios use `cfgNoParse` (no encryption key; the parser and
serializer are never invoked on the traced paths — `loadRuns` and
`fsWriteAttempts` stay `0`, which the theorems assert). -/

/-- A fresh instance (no file), call `set("a", 1)`; returns `set`'s
promise id and the machine. -/
def freshSetCall : Nat × Machine :=
  callSet (initM cfgNoParse freshEng true) ("a") (.jnum 1)

/-- The host program awaits the `set` and would then issue its next
engine call (`getAll` / `get`), modelled by the `hostStep` reaction. -/
def freshSetM : Machine := listen freshSetCall.2 freshSetCall.1 .hostStep

/-- An instance whose cache is loaded and holds the document with the
single entry `a ↦ 1` (the state after a completed read on a fresh
instance followed by no writes — reads do not deadlock). -/
def engA1 : EngineState :=
  { cache := some (.jobj (.fcons ("a") (.jnum 1) .fnil))
    cacheLoaded := true
    disk := none }

/-- On the loaded instance, call `set("b", 2)` with a file system whose
`fs.writeFile` would fail if it were ever invoked. -/
def loadedSetCall : Nat × Machine :=
  callSet (initM cfgNoParse engA1 false) ("b") (.jnum 2)

/-- An instance whose cache is loaded and empty. -/
def engEmptyLoaded : EngineState :=
  { cache := some (.jobj .fnil), cacheLoaded := true, disk := none }

/-- On the loaded empty instance, call `set("a", undefined)`. -/
def undefSetCall : Nat × Machine :=
  callSet (initM cfgNoParse engEmptyLoaded true) ("a") .jundefined

/-- Host continuation after the `set("a", undefined)` (it would call
`get("a")`). -/
def undefSetM : Machine := listen undefSetCall.2 undefSetCall.1 .hostStep

/-- On the loaded empty instance, call `set("a", function)`. -/
def funcSetCall : Nat × Machine :=
  callSet (initM cfgNoParse engEmptyLoaded true) ("a") .jfunc

/-- A fresh instance, call `delete("missing")`. -/
def freshDelCall : Nat × Machine :=
  callDelete (initM cfgNoParse freshEng true) ("missing")

/-- On the loaded instance holding `a ↦ 1`, call `delete("missing")`
(the one write-path flow that does not reach `_writeDb` nor an unloaded
`_getDbInstance`). -/
def loadedDelCall : Nat × Machine :=
  callDelete (initM cfgNoParse engA1 true) ("missing")

/-- A fresh instance, call `empty()`; the host awaits it and would call
`empty()` a second time (`hostStep`). -/
def freshEmptyCall : Nat × Machine :=
  callEmpty (initM cfgNoParse freshEng true)

def freshEmptyM : Machine := listen freshEmptyCall.2 freshEmptyCall.1 .hostStep

/-! ## Claims C1, C4, C5, C8, C9, C10: the write pipeline deadlocks

In `set` (and `delete`/`empty`), the queued task runs after
`this.writeLock` has already been reassigned (line 210) to the chain
ending in that task's own `.catch`.  Inside the task, `_getDbInstance`
(when the cache is unloaded, lines 162-172) and `_writeDb` (lines
190-197) chain their work onto that same `this.writeLock` and `await`
it — a wait that can only end after the task itself finishes.  The
microtask queue drains with the promises unresolved: the machines below
reach a `step`-fixpoint (idle event loop) in one or two microtasks, with
the façade call's promise pending at every instant. -/

/-- C1: the claim fails on the code.  For the program-order sequence
consisting of the single accepted mutation `set("a", 1)` on a fresh
instance with no file, the final `getAll()` never returns the left-fold
(or anything): the machine is quiescent after one microtask with `set`'s
promise pending forever, the host never reaches the `getAll` call
(`hostProgress` stays 0), the document is never even loaded and no disk
write is ever attempted. -/
theorem c1_first_set_never_settles :
    (∀ n, promPendingB (runN n freshSetM) freshSetCall.1 = true) ∧
    (∀ k, runN (1 + k) freshSetM = runN 1 freshSetM) ∧
    (runN 1 freshSetM).queue = [] ∧
    (runN 1 freshSetM).hostProgress = 0 ∧
    (runN 1 freshSetM).eng.cacheLoaded = false ∧
    (runN 1 freshSetM).loadRuns = 0 ∧
    (runN 1 freshSetM).fsWriteAttempts = 0 ∧
    (runN 1 freshSetM).eng.disk = none := by
  have hfix : step (runN 1 freshSetM) = runN 1 freshSetM := rfl
  refine ⟨?_, runN_fix freshSetM 1 hfix, rfl, rfl, rfl, rfl, rfl, rfl⟩
  intro n
  rcases Nat.lt_or_ge n 1 with h | h
  · have hn : n = 0 := by omega
    subst hn
    decide
  · obtain ⟨k, rfl⟩ := Nat.exists_eq_add_of_le h
    rw [runN_fix freshSetM 1 hfix k]
    decide

/-- C5: the claim fails on the code.  In the scenario `set("a", 1)` then
`get("a")` on a fresh instance, `set` never settles, so the awaiting
host never reaches the `get` (`hostProgress` stays 0 at every instant);
no `ok/value` result is ever produced. -/
theorem c5_set_then_get_never_runs :
    (∀ n, (runN n freshSetM).hostProgress = 0) ∧
    (∀ n, promPendingB (runN n freshSetM) freshSetCall.1 = true) ∧
    (∀ n, (runN n freshSetM).loadRuns = 0) := by
  have hfix : step (runN 1 freshSetM) = runN 1 freshSetM := rfl
  refine ⟨?_, ?_, ?_⟩ <;>
  · intro n
    rcases Nat.lt_or_ge n 1 with h | h
    · have hn : n = 0 := by omega
      subst hn
      decide
    · obtain ⟨k, rfl⟩ := Nat.exists_eq_add_of_le h
      rw [runN_fix freshSetM 1 hfix k]
      decide

/-- C4: the claim fails on the code.  On a loaded instance holding
`a ↦ 1`, `set("b", 2)` is issued against a file system on which
`fs.writeFile` would fail: the in-memory cache is indeed updated ahead
of the write (it holds `a ↦ 1, b ↦ 2` from line 179 on), but the disk
write is never attempted (`fsWriteAttempts` stays 0 — the `operation`
closure is queued behind the task's own unresolved chain), so no error
is ever produced or reported (`errorToThrow` stays unset) and the
enqueueing caller's promise is pending forever. -/
theorem c4_write_failure_never_reported :
    (∀ n, promPendingB (runN n loadedSetCall.2) loadedSetCall.1 = true) ∧
    (∀ n, (runN n loadedSetCall.2).fsWriteAttempts = 0) ∧
    (∀ n, (runN n loadedSetCall.2).setError = none) ∧
    (∀ k, runN (2 + k) loadedSetCall.2 = runN 2 loadedSetCall.2) ∧
    (runN 2 loadedSetCall.2).queue = [] ∧
    (runN 2 loadedSetCall.2).eng.cache =
      some (.jobj (.fcons ("a") (.jnum 1) (.fcons ("b") (.jnum 2) .fnil))) ∧
    (runN 2 loadedSetCall.2).eng.disk = none := by
  have hfix : step (runN 2 loadedSetCall.2) = runN 2 loadedSetCall.2 := rfl
  refine ⟨?_, ?_, ?_, runN_fix loadedSetCall.2 2 hfix, rfl, rfl, rfl⟩ <;>
  · intro n
    rcases Nat.lt_or_ge n 2 with h | h
    · interval_cases n <;> decide
    · obtain ⟨k, rfl⟩ := Nat.exists_eq_add_of_le h
      rw [runN_fix loadedSetCall.2 2 hfix k]
      decide

/-- C8: the claim fails on the code for an unloaded cache, and its
absent-key part holds once the cache is loaded.  On a fresh instance,
`delete("missing")` never returns the key-not-found result: the task's
`_getDbInstance` chains the first load onto the task's own lock chain,
so the load never runs (`loadRuns` stays 0) and `delete`'s promise is
pending forever.  On an instance whose cache is already loaded, the
absent-key `delete` does complete with the not-found result (`ok:false`,
modelled as `jbool false`), attempts no disk write and leaves the file
untouched. -/
theorem c8_delete_deadlocks_when_unloaded :
    (∀ n, promPendingB (runN n freshDelCall.2) freshDelCall.1 = true) ∧
    (∀ n, (runN n freshDelCall.2).loadRuns = 0) ∧
    (∀ k, runN (1 + k) freshDelCall.2 = runN 1 freshDelCall.2) ∧
    (runN 1 freshDelCall.2).queue = [] ∧
    (runN 1 freshDelCall.2).eng.cacheLoaded = false ∧
    (runN 5 loadedDelCall.2).proms[loadedDelCall.1]? =
      some ⟨.fulfilled (.jbool false), []⟩ ∧
    (runN 5 loadedDelCall.2).fsWriteAttempts = 0 ∧
    (runN 5 loadedDelCall.2).eng.disk = none ∧
    (runN 5 loadedDelCall.2).queue = [] := by
  have hfix : step (runN 1 freshDelCall.2) = runN 1 freshDelCall.2 := rfl
  refine ⟨?_, ?_, runN_fix freshDelCall.2 1 hfix, rfl, rfl, rfl, rfl, rfl, rfl⟩ <;>
  · intro n
    rcases Nat.lt_or_ge n 1 with h | h
    · have hn : n = 0 := by omega
      subst hn
      decide
    · obtain ⟨k, rfl⟩ := Nat.exists_eq_add_of_le h
      rw [runN_fix freshDelCall.2 1 hfix k]
      decide

/-- C9: the claim fails on the code.  `empty()` does empty the in-memory
document synchronously (cache becomes the empty object, line 179), but
it never writes through (`fsWriteAttempts` stays 0, the file is never
created) and its promise never settles, so the host never reaches a
second `empty()` call (`hostProgress` stays 0): neither the write-through
nor the twice-in-a-row part of the claim is realizable. -/
theorem c9_empty_never_settles :
    (∀ n, promPendingB (runN n freshEmptyM) freshEmptyCall.1 = true) ∧
    (∀ n, (runN n freshEmptyM).fsWriteAttempts = 0) ∧
    (∀ n, (runN n freshEmptyM).hostProgress = 0) ∧
    (∀ k, runN (1 + k) freshEmptyM = runN 1 freshEmptyM) ∧
    (runN 1 freshEmptyM).queue = [] ∧
    (runN 1 freshEmptyM).eng.cache = some (.jobj .fnil) ∧
    (runN 1 freshEmptyM).eng.cacheLoaded = true ∧
    (runN 1 freshEmptyM).eng.disk = none := by
  have hfix : step (runN 1 freshEmptyM) = runN 1 freshEmptyM := rfl
  refine ⟨?_, ?_, ?_, runN_fix freshEmptyM 1 hfix, rfl, rfl, rfl, rfl⟩ <;>
  · intro n
    rcases Nat.lt_or_ge n 1 with h | h
    · have hn : n = 0 := by omega
      subst hn
      decide
    · obtain ⟨k, rfl⟩ := Nat.exists_eq_add_of_le h
      rw [runN_fix freshEmptyM 1 hfix k]
      decide

/-- C10: the dropping mechanism in the claim is real, but the observable
part fails on the code.  On a loaded empty instance, `set("a", undefined)`
(and likewise with a function value) leaves the key absent from the
in-memory document — the JSON-round-trip clone at line 179 drops it,
exactly as the claim says — but the `set` call itself never settles, so
the "subsequent `get(key)`" of the claim is never reached by an awaiting
caller (`hostProgress` stays 0). -/
theorem c10_undefined_value_dropped_but_set_hangs :
    (runN 2 undefSetM).eng.cache = some (.jobj .fnil) ∧
    objHas (cacheVal (runN 2 undefSetM).eng.cache) ("a") = false ∧
    (∀ n, promPendingB (runN n undefSetM) undefSetCall.1 = true) ∧
    (∀ n, (runN n undefSetM).hostProgress = 0) ∧
    (∀ k, runN (2 + k) undefSetM = runN 2 undefSetM) ∧
    (runN 2 funcSetCall.2).eng.cache = some (.jobj .fnil) ∧
    (∀ n, promPendingB (runN n funcSetCall.2) funcSetCall.1 = true) := by
  have hfix : step (runN 2 undefSetM) = runN 2 undefSetM := rfl
  have hfix2 : step (runN 2 funcSetCall.2) = runN 2 funcSetCall.2 := rfl
  refine ⟨rfl, rfl, ?_, ?_, runN_fix undefSetM 2 hfix, rfl, ?_⟩
  · intro n
    rcases Nat.lt_or_ge n 2 with h | h
    · interval_cases n <;> decide
    · obtain ⟨k, rfl⟩ := Nat.exists_eq_add_of_le h
      rw [runN_fix undefSetM 2 hfix k]
      decide
  · intro n
    rcases Nat.lt_or_ge n 2 with h | h
    · interval_cases n <;> decide
    · obtain ⟨k, rfl⟩ := Nat.exists_eq_add_of_le h
      rw [runN_fix undefSetM 2 hfix k]
      decide
  · intro n
    rcases Nat.lt_or_ge n 2 with h | h
    · interval_cases n <;> decide
    · obtain ⟨k, rfl⟩ := Nat.exists_eq_add_of_le h
      rw [runN_fix funcSetCall.2 2 hfix2 k]
      decide

end MySimpleDB
